import Mathlib

/-!
Verification of the 3D coordinate-transformation engine of the
IntelligentOutboundSystem repository against its design document.

The development shallowly embeds the two relevant source modules:

* `src/Services/IOS.CameraService/SDK/Qcommon/Coordinate_conversion.py`
  (class `CoordinateTransformer`): calibration fitting, point transforms,
  angle conversion, and the static single-pixel deprojection
  `calculate_3d_coordinates_from_depth`;
* `src/Services/IOS.CameraService/SDK/SickSDK.py`: the vectorised
  full-frame pipelines `get_3d_coordinates` and `get_z_coordinates`
  (their pure per-pixel computation, with frame acquisition stripped),
  and `_calculate_3d_coordinates_from_depth`, a verbatim copy of the
  static method above.

Modelling conventions:

* Floating-point arithmetic is modelled over an arbitrary linear ordered
  field `K` (`ℚ` in concrete witnesses, `ℝ` for the trigonometric parts),
  with `np.sqrt` passed in as an explicit function parameter `sqrt`:
  every theorem quantifying over `sqrt` therefore holds in particular for
  the real square root.  Field division is total (`x / 0 = 0`), matching
  numpy's non-raising elementwise semantics.
* Python duck typing is modelled with `Option`: an attribute that may be
  absent is an `Option` field (`none` = `hasattr` fails); a value that may
  not be a sequence (no `__len__`) is an `Option (List K)`
  (`none` = not a sequence).
* Python exceptions are modelled with `Except`: `PyExc.valueError` stands
  for the `ValueError`s raised by the transformer and `PyExc.attributeError`
  for the `AttributeError` produced by accessing the undefined method
  `self.add_log`.
-/

/-- Python exceptions raised by `CoordinateTransformer`. -/
inductive PyExc : Type
  | valueError
  | attributeError
  deriving DecidableEq, Repr

/-- Errors raised by `calculate_transformation_matrix`
(`ValueError` with two distinguishable messages in the source;
the spec names them `InvalidInput` and `InsufficientData`). -/
inductive CalibExc : Type
  | invalidInput
  | insufficientData
  deriving DecidableEq, Repr

section Deprojection

variable {K : Type} [LinearOrderedField K]

/-- The duck-typed camera-parameter record passed to
`calculate_3d_coordinates_from_depth`.  Each attribute the Python code
probes with `hasattr` is an `Option` field (`none` = attribute absent).
The `cam2worldMatrix` attribute, when present, holds a value that may or
may not be a sequence, hence the inner `Option (List K)`. -/
structure CameraParams (K : Type) where
  width : Option ℤ
  height : Option ℤ
  cx : Option K
  cy : Option K
  fx : Option K
  fy : Option K
  k1 : Option K
  k2 : Option K
  f2rc : Option K
  cam2worldMatrix : Option (Option (List K))

/-- The `required_attrs` presence loop of
`calculate_3d_coordinates_from_depth` (source lines 193-197): all ten
listed attributes, including `cam2worldMatrix`, must exist. -/
def hasRequiredAttrs (cp : CameraParams K) : Bool :=
  cp.width.isSome && cp.height.isSome && cp.cx.isSome && cp.cy.isSome &&
  cp.fx.isSome && cp.fy.isSome && cp.k1.isSome && cp.k2.isSome &&
  cp.f2rc.isSome && cp.cam2worldMatrix.isSome

/-- Embedding of `CoordinateTransformer.calculate_3d_coordinates_from_depth`
(Coordinate_conversion.py lines 170-245; `SickSDK.py` lines 148-222 hold a
character-identical copy).  `depth_data` is `none` for Python `None`,
`some none` for a non-sequence object, `some (some dd)` for a sequence.
After the `hasattr` loop has confirmed presence, attribute reads are the
`Option.getD` of the checked field.  The result mirrors the source's
`(success, (x, y, z))` pair. -/
def calculate_3d_coordinates_from_depth (sqrt : K → K) (x y : ℤ)
    (depth_data : Option (Option (List K))) (camera_params : Option (CameraParams K)) :
    Bool × K × K × K :=
  match depth_data, camera_params with
  | some (some dd), some cp =>
    if hasRequiredAttrs cp = false then (false, 0, 0, 0)
    else
      let w : ℤ := cp.width.getD 0
      let h : ℤ := cp.height.getD 0
      if x < 0 ∨ x ≥ w ∨ y < 0 ∨ y ≥ h then (false, 0, 0, 0)
      else
        let index : ℤ := y * w + x
        if index ≥ (dd.length : ℤ) then (false, 0, 0, 0)
        else
          let z : K := dd.getD index.toNat 0
          if z ≤ 0 then (false, 0, 0, 0)
          else
            let xp : K := (cp.cx.getD 0 - (x : K)) / cp.fx.getD 0
            let yp : K := (cp.cy.getD 0 - (y : K)) / cp.fy.getD 0
            let r2 : K := xp * xp + yp * yp
            let r4 : K := r2 * r2
            let k : K := 1 + cp.k1.getD 0 * r2 + cp.k2.getD 0 * r4
            let xd : K := xp * k
            let yd : K := yp * k
            let s0 : K := sqrt (xd * xd + yd * yd + 1)
            let x_cam : K := xd * z / s0
            let y_cam : K := yd * z / s0
            let z_cam : K := z / s0 - cp.f2rc.getD 0
            match cp.cam2worldMatrix.getD none with
            | none => (true, x_cam, y_cam, z_cam)
            | some m =>
              if m.length ≠ 16 then (true, x_cam, y_cam, z_cam)
              else
                let g : ℕ → K := fun i => m.getD i 0
                (true,
                 g 3 + z_cam * g 2 + y_cam * g 1 + x_cam * g 0,
                 g 7 + z_cam * g 6 + y_cam * g 5 + x_cam * g 4,
                 g 11 + z_cam * g 10 + y_cam * g 9 + x_cam * g 8)
  | _, _ => (false, 0, 0, 0)

/-- A camera-parameter record all of whose required attributes are present,
as consumed by the full-frame pipelines once their own `required_attrs`
check has passed.  `cam2worldMatrix` is the attribute's value: `none`
models a value without `__len__`, `some m` a sequence `m`. -/
structure FrameParams (K : Type) where
  width : ℕ
  height : ℕ
  cx : K
  cy : K
  fx : K
  fy : K
  k1 : K
  k2 : K
  f2rc : K
  cam2worldMatrix : Option (List K)

/-- The `CameraParams` view of a fully-populated record. -/
def FrameParams.toCameraParams (c : FrameParams K) : CameraParams K :=
  ⟨some (c.width : ℤ), some (c.height : ℤ), some c.cx, some c.cy, some c.fx,
   some c.fy, some c.k1, some c.k2, some c.f2rc, some c.cam2worldMatrix⟩

/-- The pure vectorised computation of `QtVisionSick.get_3d_coordinates`
(SickSDK.py lines 250-295), after frame acquisition and the
`required_attrs` check: `meshgrid`/`flatten` give pixel `(x, y) =
(i % width, i / width)` at flat index `i`; the per-element formulas,
the once-per-array world branch, and the `depth ≤ 0` mask follow the
source line by line. -/
def get_3d_coordinates_core (sqrt : K → K) (c : FrameParams K) (dd : List K) :
    List (K × K × K) :=
  (List.range (c.height * c.width)).map fun i =>
    let x : ℕ := i % c.width
    let y : ℕ := i / c.width
    let depth : K := dd.getD i 0
    let xp : K := (c.cx - (x : K)) / c.fx
    let yp : K := (c.cy - (y : K)) / c.fy
    let r2 : K := xp * xp + yp * yp
    let r4 : K := r2 * r2
    let k : K := 1 + c.k1 * r2 + c.k2 * r4
    let xd : K := xp * k
    let yd : K := yp * k
    let s0 : K := sqrt (xd * xd + yd * yd + 1)
    let x_cam : K := xd * depth / s0
    let y_cam : K := yd * depth / s0
    let z_cam : K := depth / s0 - c.f2rc
    let final :=
      match c.cam2worldMatrix with
      | some m =>
        if m.length = 16 then
          let g : ℕ → K := fun j => m.getD j 0
          (g 3 + z_cam * g 2 + y_cam * g 1 + x_cam * g 0,
           g 7 + z_cam * g 6 + y_cam * g 5 + x_cam * g 4,
           g 11 + z_cam * g 10 + y_cam * g 9 + x_cam * g 8)
        else (x_cam, y_cam, z_cam)
      | none => (x_cam, y_cam, z_cam)
    if 0 < depth then final else ((0 : K), (0 : K), (0 : K))

/-- The pure vectorised computation of `QtVisionSick.get_z_coordinates`
(SickSDK.py lines 327-359): identical grid and distortion formulas, but
only `z_cam = depth / s0 - f2rc` is produced, no world-matrix branch is
applied, and invalid pixels are masked to `0`. -/
def get_z_coordinates_core (sqrt : K → K) (c : FrameParams K) (dd : List K) :
    List K :=
  (List.range (c.height * c.width)).map fun i =>
    let x : ℕ := i % c.width
    let y : ℕ := i / c.width
    let depth : K := dd.getD i 0
    let xp : K := (c.cx - (x : K)) / c.fx
    let yp : K := (c.cy - (y : K)) / c.fy
    let r2 : K := xp * xp + yp * yp
    let r4 : K := r2 * r2
    let k : K := 1 + c.k1 * r2 + c.k2 * r4
    let xd : K := xp * k
    let yd : K := yp * k
    let s0 : K := sqrt (xd * xd + yd * yd + 1)
    let z_cam : K := depth / s0 - c.f2rc
    if 0 < depth then z_cam else 0

end Deprojection

section Calibration

variable {K : Type} [LinearOrderedField K]

/-- Embedding of `np.append(point, 1)`: the homogeneous extension of a 3-vector. -/
def homog (p : Fin 3 → K) : Fin 4 → K :=
  fun j => if h : (j : ℕ) < 3 then p ⟨j, h⟩ else 1

/-- Source lines 82-84 of `Coordinate_conversion.py`: start from
`np.eye(4)`, overwrite the top-left 3×3 block with the rotation and the
top-right column with the translation.  The bottom row keeps the identity
values `(0, 0, 0, 1)`. -/
def buildTransformationMatrix (R : Fin 3 → Fin 3 → K) (t : Fin 3 → K) :
    Fin 4 → Fin 4 → K :=
  fun i j =>
    if hi : (i : ℕ) < 3 then
      if hj : (j : ℕ) < 3 then R ⟨i, hi⟩ ⟨j, hj⟩ else t ⟨i, hi⟩
    else
      if (j : ℕ) = 3 then 1 else 0

/-- Row-major reshape `params[:9].reshape(3, 3)` of the first nine
solver outputs. -/
def reshapeRotation (params : Fin 12 → K) : Fin 3 → Fin 3 → K :=
  fun i j => params ⟨3 * (i : ℕ) + (j : ℕ), by
    have hi := i.isLt; have hj := j.isLt; omega⟩

/-- The translation part `params[9:]` of the solver output. -/
def reshapeTranslation (params : Fin 12 → K) : Fin 3 → K :=
  fun i => params ⟨9 + (i : ℕ), by have := i.isLt; omega⟩

/-- Embedding of `CoordinateTransformer.calculate_transformation_matrix`
(Coordinate_conversion.py lines 41-89).  The call to
`scipy.optimize.least_squares` is external library code, modelled as an
abstract solver `ls` mapping the two point lists to the 12 fitted
parameters; the two `ValueError`s guarding it are the fail-fast checks the
spec names `InvalidInput` and `InsufficientData`.  Persisting the matrix
(`save_transformation_matrix`) is file I/O and is outside the model. -/
def calculate_transformation_matrix
    (ls : List (Fin 3 → K) → List (Fin 3 → K) → Fin 12 → K)
    (source_points target_points : List (Fin 3 → K)) :
    Except CalibExc (Fin 4 → Fin 4 → K) :=
  if source_points.length ≠ target_points.length then .error .invalidInput
  else if source_points.length < 4 then .error .insufficientData
  else
    let params := ls source_points target_points
    .ok (buildTransformationMatrix (reshapeRotation params) (reshapeTranslation params))

/-- Embedding of `CoordinateTransformer.transform_point` (lines 247-268): raises
`ValueError` (the spec's `NoCalibration`) when no matrix is loaded;
otherwise appends a homogeneous 1, left-multiplies by the matrix
(`np.dot(T, hp)`), and divides the first three components by the
fourth. -/
def transform_point (T? : Option (Fin 4 → Fin 4 → K)) (point : Fin 3 → K) :
    Except PyExc (Fin 3 → K) :=
  match T? with
  | none => .error .valueError
  | some T =>
    let hp : Fin 4 → K := homog point
    let th : Fin 4 → K := fun i => ∑ j, T i j * hp j
    .ok fun i => th i.castSucc / th 3

/-- Embedding of `CoordinateTransformer.transform_points` (lines 270-291): stacks a
ones column onto the points (`np.hstack`), computes
`np.dot(H, T.T)` — whose row `i` is `fun k => ∑ j, hp j * T k j` — and
divides the first three columns by the fourth, row-wise. -/
def transform_points (T? : Option (Fin 4 → Fin 4 → K))
    (points : List (Fin 3 → K)) : Except PyExc (List (Fin 3 → K)) :=
  match T? with
  | none => .error .valueError
  | some T =>
    .ok (points.map fun p =>
      let hp : Fin 4 → K := homog p
      let th : Fin 4 → K := fun k => ∑ j, hp j * T k j
      fun i => th i.castSucc / th 3)

end Calibration

section AngleConversion

open Real

/-- Python's float modulo `a % b`: `a - b * ⌊a / b⌋`, whose result takes
the sign of `b`. -/
noncomputable def pyMod (a b : ℝ) : ℝ := a - b * (⌊a / b⌋ : ℤ)

/-- Model of `np.arctan2 y x`: the angle of the point `(x, y)` in `(-π, π]`, with
`arctan2 0 0 = 0`; this is exactly `Complex.arg ⟨x, y⟩`. -/
noncomputable def arctan2 (y x : ℝ) : ℝ := Complex.arg (Complex.mk x y)

/-- The method `self.add_log` invoked by
`calculate_robot_angle_and_compensation` (lines 161-162 and 167).
`CoordinateTransformer` defines no method or attribute named `add_log`
anywhere in the repository, so in CPython every one of these calls raises
`AttributeError` at the attribute lookup; the message arguments are never
evaluated into a successful call. -/
def add_log (_msg _level : String) : Except PyExc Unit :=
  .error .attributeError

/-- Embedding of `CoordinateTransformer.transform_angle_from_camera_to_robot`
(lines 91-134): raises `ValueError` when no matrix is calibrated;
otherwise builds the unit direction at the angle (in radians), applies the
rotation block `T[:3,:3]` to the origin and to the direction point,
subtracts, takes `np.arctan2` on the XY projection, converts to degrees
and normalises with `% 360`. -/
noncomputable def transform_angle_from_camera_to_robot
    (T? : Option (Fin 4 → Fin 4 → ℝ)) (camera_angle_deg : ℝ) :
    Except PyExc ℝ :=
  match T? with
  | none => .error .valueError
  | some T =>
    let camera_angle_rad := camera_angle_deg * π / 180
    let center : Fin 3 → ℝ := fun _ => 0
    let direction_point : Fin 3 → ℝ :=
      fun i => if i = 0 then cos camera_angle_rad
               else if i = 1 then sin camera_angle_rad else 0
    let rotation : Fin 3 → Fin 3 → ℝ := fun i j => T i.castSucc j.castSucc
    let center_robot : Fin 3 → ℝ := fun i => ∑ j, rotation i j * center j
    let direction_robot : Fin 3 → ℝ := fun i => ∑ j, rotation i j * direction_point j
    let direction_vector : Fin 3 → ℝ := fun i => direction_robot i - center_robot i
    let robot_angle_rad := arctan2 (direction_vector 1) (direction_vector 0)
    .ok (pyMod (robot_angle_rad * 180 / π) 360)

/-- Embedding of `CoordinateTransformer.calculate_robot_angle_and_compensation`
(lines 136-168), faithful to CPython: the `try` body computes the mapped
angle and the shortest-path compensation, then calls the undefined
`self.add_log`, which raises `AttributeError`; the `except` handler's own
`self.add_log` call raises `AttributeError` again, so the handler's
`return camera_angle, 0.0` is never reached. -/
noncomputable def calculate_robot_angle_and_compensation
    (T? : Option (Fin 4 → Fin 4 → ℝ)) (camera_angle target_angle : ℝ) :
    Except PyExc (ℝ × ℝ) :=
  let body : Except PyExc (ℝ × ℝ) := do
    let robot_angle ← transform_angle_from_camera_to_robot T? camera_angle
    let angle_diff := pyMod (target_angle - robot_angle) 360
    let compensation_angle := if angle_diff > 180 then angle_diff - 360 else angle_diff
    let _ ← add_log "angle conversion" "debug"
    let _ ← add_log "angle compensation" "info"
    pure (robot_angle, compensation_angle)
  match body with
  | .ok v => .ok v
  | .error _ =>
    match add_log "angle conversion failed" "error" with
    | .ok _ => .ok (camera_angle, 0)
    | .error e => .error e

/-- Modelled from the spec: the behaviour `calculate_robot_angle_and_compensation`
documents for itself (its docstring's `Returns: tuple (robot_angle,
compensation_angle)` and the comment on line 168, "on failure return the
original angle and zero compensation"), i.e. the same computation with the
logging calls treated as side-effect-free.  This is the intent the claims
describe; the shipped code instead crashes in `add_log`. -/
noncomputable def calculate_robot_angle_and_compensation_intended
    (T? : Option (Fin 4 → Fin 4 → ℝ)) (camera_angle target_angle : ℝ) :
    ℝ × ℝ :=
  match transform_angle_from_camera_to_robot T? camera_angle with
  | .error _ => (camera_angle, 0)
  | .ok robot_angle =>
    let angle_diff := pyMod (target_angle - robot_angle) 360
    let compensation_angle := if angle_diff > 180 then angle_diff - 360 else angle_diff
    (robot_angle, compensation_angle)

end AngleConversion

section SpecSide

variable {K : Type} [LinearOrderedField K]

/-- Modelled from the claim wording for C6: the disjunction of validation
failures — null depth data or intrinsics, non-indexable depth data,
`x < 0`, `x ≥ width`, `y < 0`, `y ≥ height`, computed index at least the
depth-array length, a missing required intrinsic attribute, or a depth
value `≤ 0`.  Reads of `width`/`height` are guarded by attribute presence
(`Option.getD`), which the missing-attribute disjunct subsumes. -/
def specDeprojectFails (x y : ℤ) (dd? : Option (Option (List K)))
    (cp? : Option (CameraParams K)) : Prop :=
  dd? = none ∨ cp? = none ∨ dd? = some none
  ∨ (∃ cp, cp? = some cp ∧ hasRequiredAttrs cp = false)
  ∨ x < 0
  ∨ (∃ cp, cp? = some cp ∧ x ≥ cp.width.getD 0)
  ∨ y < 0
  ∨ (∃ cp, cp? = some cp ∧ y ≥ cp.height.getD 0)
  ∨ (∃ cp dd, cp? = some cp ∧ dd? = some (some dd) ∧
      y * cp.width.getD 0 + x ≥ (dd.length : ℤ))
  ∨ (∃ cp dd, cp? = some cp ∧ dd? = some (some dd) ∧
      dd.getD (y * cp.width.getD 0 + x).toNat 0 ≤ 0)

/-- The camera-frame branch of `calculate_3d_coordinates_from_depth`
(source lines 209-231), factored out to state what the pixel deprojection
returns when the `cam2worldMatrix` value is not a valid 16-element
sequence. -/
def cameraFrameCoords (sqrt : K → K) (cp : CameraParams K) (dd : List K)
    (x y : ℤ) : K × K × K :=
  let z : K := dd.getD ((y * cp.width.getD 0 + x).toNat) 0
  let xp : K := (cp.cx.getD 0 - (x : K)) / cp.fx.getD 0
  let yp : K := (cp.cy.getD 0 - (y : K)) / cp.fy.getD 0
  let r2 : K := xp * xp + yp * yp
  let r4 : K := r2 * r2
  let k : K := 1 + cp.k1.getD 0 * r2 + cp.k2.getD 0 * r4
  let xd : K := xp * k
  let yd : K := yp * k
  let s0 : K := sqrt (xd * xd + yd * yd + 1)
  (xd * z / s0, yd * z / s0, z / s0 - cp.f2rc.getD 0)

end SpecSide

/-! ### Concrete fixtures used by witnesses and counterexamples -/

/-- A square-root stand-in for concrete `ℚ` evaluations.  Every concrete
instance below is chosen so that the pipelines only ever take the square
root of `1` (principal point at the pixel, no distortion), where the real
square root is `1` as well, so the fixture agrees with `np.sqrt` at every
argument actually evaluated. -/
def sqrtAtOne : ℚ → ℚ := fun _ => 1

/-- Intrinsics with all nine scalar attributes present but no
`cam2worldMatrix` attribute at all. -/
def cpNoC2W : CameraParams ℚ :=
  ⟨some 2, some 2, some 1, some 1, some 1, some 1, some 0, some 0, some 0, none⟩

/-- Intrinsics with the `cam2worldMatrix` attribute present but bound to a
non-sequence value (Python `None`). -/
def cpC2WNone : CameraParams ℚ :=
  ⟨some 2, some 2, some 1, some 1, some 1, some 1, some 0, some 0, some 0, some none⟩

/-- A 1×1 frame fixture with a 16-element row-major world matrix. -/
def c1Params : FrameParams ℚ :=
  ⟨1, 1, 0, 0, 1, 1, 0, 0, 0,
   some [1, 0, 0, 0, 0, 1, 0, 0, 0, 0, 1, 0, 0, 0, 0, 1]⟩

/-- A 1×1 frame fixture whose world matrix translates `z` by `100`. -/
def c3Params : FrameParams ℚ :=
  ⟨1, 1, 0, 0, 1, 1, 0, 0, 0,
   some [1, 0, 0, 0, 0, 1, 0, 0, 0, 0, 1, 100, 0, 0, 0, 1]⟩

/-- A 1×1 frame fixture with a non-sequence `cam2worldMatrix` value. -/
def c3ParamsNoM : FrameParams ℚ := ⟨1, 1, 0, 0, 1, 1, 0, 0, 0, none⟩

/-- The origin point. -/
def q0 : Fin 3 → ℚ := fun _ => 0

/-- Four coincident point pairs: enough for the cardinality checks. -/
def fourPoints : List (Fin 3 → ℚ) := [q0, q0, q0, q0]

/-- A solver stub returning all-zero parameters. -/
def zeroSolver : List (Fin 3 → ℚ) → List (Fin 3 → ℚ) → Fin 12 → ℚ :=
  fun _ _ _ => 0

/-- Three coincident point pairs: below the minimum. -/
def threePoints : List (Fin 3 → ℚ) := [q0, q0, q0]

/-- The 4×4 identity over `ℚ`. -/
def id4Q : Fin 4 → Fin 4 → ℚ := fun i j => if i = j then 1 else 0

/-- The 4×4 identity over `ℝ` (an identity calibration). -/
def id4R : Fin 4 → Fin 4 → ℝ := fun i j => if i = j then 1 else 0

/-! ### Claims -/

/-- C5: the calibration fit raises `InvalidInput` exactly for point lists
of unequal length, raises `InsufficientData` exactly for matched lists of
fewer than 4 points, and raises neither for matched lists of 4 or more
points (for any behaviour of the external least-squares solver). -/
theorem fit_error_contract {K : Type} [LinearOrderedField K]
    (ls : List (Fin 3 → K) → List (Fin 3 → K) → Fin 12 → K)
    (src tgt : List (Fin 3 → K)) :
    (calculate_transformation_matrix ls src tgt = .error .invalidInput ↔
      src.length ≠ tgt.length)
    ∧ (calculate_transformation_matrix ls src tgt = .error .insufficientData ↔
      (src.length = tgt.length ∧ src.length < 4))
    ∧ (src.length = tgt.length → 4 ≤ src.length →
      calculate_transformation_matrix ls src tgt =
        .ok (buildTransformationMatrix (reshapeRotation (ls src tgt))
              (reshapeTranslation (ls src tgt)))) := by
  unfold calculate_transformation_matrix
  split_ifs with h1 h2
  · exact ⟨⟨fun _ => h1, fun _ => rfl⟩,
      ⟨fun h => by simp at h, fun h => absurd h.1 h1⟩,
      fun he _ => absurd he h1⟩
  · rw [not_ne_iff] at h1
    exact ⟨⟨fun h => by simp at h, fun hne => absurd h1 hne⟩,
      ⟨fun _ => ⟨h1, h2⟩, fun _ => rfl⟩,
      fun _ h4 => absurd h4 (by omega)⟩
  · rw [not_ne_iff] at h1
    exact ⟨⟨fun h => by simp at h, fun hne => absurd h1 hne⟩,
      ⟨fun h => by simp at h, fun hc => absurd hc.2 (by omega)⟩,
      fun _ _ => rfl⟩

/-- C5 witness: at four matched pairs the fit succeeds; at three matched
pairs and at mismatched lists the two errors are produced as stated. -/
theorem fit_error_contract_witness :
    calculate_transformation_matrix zeroSolver fourPoints fourPoints =
      .ok (buildTransformationMatrix (reshapeRotation (zeroSolver fourPoints fourPoints))
            (reshapeTranslation (zeroSolver fourPoints fourPoints)))
    ∧ calculate_transformation_matrix zeroSolver threePoints threePoints =
      .error .insufficientData
    ∧ calculate_transformation_matrix zeroSolver fourPoints threePoints =
      .error .invalidInput := by
  refine ⟨(fit_error_contract zeroSolver fourPoints fourPoints).2.2 rfl (by decide),
    (fit_error_contract zeroSolver threePoints threePoints).2.1.mpr (by decide),
    (fit_error_contract zeroSolver fourPoints threePoints).1.mpr (by decide)⟩

/-- C7: `transform_point` raises the no-calibration `ValueError` exactly
when no matrix is loaded; with a matrix `T` it returns the homogeneous
extension of the point multiplied by `T`, with the first three components
divided by the fourth. -/
theorem transform_point_contract {K : Type} [LinearOrderedField K]
    (T? : Option (Fin 4 → Fin 4 → K)) (p : Fin 3 → K) :
    (transform_point T? p = .error PyExc.valueError ↔ T? = none)
    ∧ (∀ T, T? = some T →
      transform_point T? p =
        .ok fun i => (∑ j, T i.castSucc j * homog p j) / (∑ j, T 3 j * homog p j)) := by
  cases T? with
  | none => exact ⟨by simp [transform_point], by simp⟩
  | some T =>
    refine ⟨by simp [transform_point], ?_⟩
    rintro T' hT'
    cases hT'
    rfl

/-- C7 witness: with no matrix loaded the error is raised. -/
theorem transform_point_contract_witness :
    transform_point (none : Option (Fin 4 → Fin 4 → ℚ)) q0 = .error PyExc.valueError :=
  (transform_point_contract none q0).1.mpr rfl

/-- C9: every matrix a successful fit returns has bottom row
`[0, 0, 0, 1]`, so the fourth homogeneous component computed by a
subsequent `transform_point` is exactly `1` and the final division leaves
the transformed point unchanged. -/
theorem fitted_matrix_bottom_row {K : Type} [LinearOrderedField K]
    (ls : List (Fin 3 → K) → List (Fin 3 → K) → Fin 12 → K)
    (src tgt : List (Fin 3 → K)) (M : Fin 4 → Fin 4 → K)
    (h : calculate_transformation_matrix ls src tgt = .ok M) :
    (∀ j : Fin 4, M 3 j = if j = 3 then 1 else 0)
    ∧ ∀ p : Fin 3 → K,
        (∑ j, M 3 j * homog p j) = 1
        ∧ transform_point (some M) p = .ok fun i => ∑ j, M i.castSucc j * homog p j := by
  unfold calculate_transformation_matrix at h
  split_ifs at h with h1 h2
  rw [Except.ok.injEq] at h
  subst h
  have hrow : ∀ j : Fin 4,
      buildTransformationMatrix (reshapeRotation (ls src tgt))
        (reshapeTranslation (ls src tgt)) 3 j = if j = 3 then 1 else 0 := by
    intro j
    unfold buildTransformationMatrix
    rw [dif_neg (by decide)]
    refine if_congr ?_ rfl rfl
    rw [Fin.ext_iff]
    exact Iff.rfl
  have hsum : ∀ p : Fin 3 → K,
      (∑ j, buildTransformationMatrix (reshapeRotation (ls src tgt))
        (reshapeTranslation (ls src tgt)) 3 j * homog p j) = 1 := by
    intro p
    rw [Fin.sum_univ_four, hrow 0, hrow 1, hrow 2, hrow 3]
    have h4 : homog p 3 = (1 : K) := by unfold homog; rw [dif_neg (by decide)]
    rw [h4, if_neg (by decide : ¬(0 : Fin 4) = 3), if_neg (by decide : ¬(1 : Fin 4) = 3),
      if_neg (by decide : ¬(2 : Fin 4) = 3), if_pos (rfl : (3 : Fin 4) = 3)]
    ring
  refine ⟨hrow, fun p => ⟨hsum p, ?_⟩⟩
  show Except.ok _ = _
  rw [Except.ok.injEq]
  funext i
  show (∑ j, _ * homog p j) / (∑ j, _ * homog p j) = _
  rw [hsum p, div_one]

/-- C9 witness: a concrete successful fit (zero solver output, four
coincident pairs) yields a matrix whose fourth homogeneous component at
the origin is exactly `1`. -/
theorem fitted_matrix_bottom_row_witness :
    (∑ j, buildTransformationMatrix (reshapeRotation (zeroSolver fourPoints fourPoints))
      (reshapeTranslation (zeroSolver fourPoints fourPoints)) 3 j * homog q0 j) = 1 :=
  ((fitted_matrix_bottom_row zeroSolver fourPoints fourPoints _ rfl).2 q0).1

/-- C10: with a loaded matrix, the batch `transform_points` succeeds and
its `i`-th output is exactly what `transform_point` returns on the `i`-th
input point, for every index (the nonemptiness and nonzero-denominator
hypotheses are those of the claim). -/
theorem transform_points_matches_pointwise {K : Type} [LinearOrderedField K]
    (T : Fin 4 → Fin 4 → K) (ps : List (Fin 3 → K)) (hne : ps ≠ [])
    (hnz : ∀ p ∈ ps, (∑ j, T 3 j * homog p j) ≠ 0) :
    ∃ out, transform_points (some T) ps = .ok out ∧ out.length = ps.length ∧
      ∀ (i : ℕ) (hi : i < ps.length) (ho : i < out.length),
        transform_point (some T) (ps.get ⟨i, hi⟩) = .ok (out.get ⟨i, ho⟩) := by
  refine ⟨ps.map fun p => fun i : Fin 3 =>
      (∑ j, homog p j * T i.castSucc j) / (∑ j, homog p j * T 3 j), rfl, by simp, ?_⟩
  intro i hi ho
  have hg : (ps.map fun p => fun i : Fin 3 =>
      (∑ j, homog p j * T i.castSucc j) / (∑ j, homog p j * T 3 j)).get ⟨i, ho⟩
      = fun k : Fin 3 => (∑ j, homog (ps.get ⟨i, hi⟩) j * T k.castSucc j) /
          (∑ j, homog (ps.get ⟨i, hi⟩) j * T 3 j) := by
    simp [List.get_eq_getElem, List.getElem_map]
  rw [hg]
  show Except.ok _ = _
  rw [Except.ok.injEq]
  funext k
  congr 1
  · exact Finset.sum_congr rfl fun j _ => mul_comm _ _
  · exact Finset.sum_congr rfl fun j _ => mul_comm _ _

/-- C10 witness: the identity matrix and a single origin point, with the
nonemptiness and nonzero-fourth-component hypotheses discharged
concretely. -/
theorem transform_points_matches_pointwise_witness :
    ∃ out, transform_points (some id4Q) [q0] = .ok out ∧ out.length = [q0].length ∧
      ∀ (i : ℕ) (hi : i < [q0].length) (ho : i < out.length),
        transform_point (some id4Q) ([q0].get ⟨i, hi⟩) = .ok (out.get ⟨i, ho⟩) := by
  refine transform_points_matches_pointwise id4Q [q0] (by simp) ?_
  intro p hp
  rw [List.mem_singleton] at hp
  subst hp
  rw [Fin.sum_univ_four,
    (by decide : id4Q 3 0 = 0), (by decide : id4Q 3 1 = 0),
    (by decide : id4Q 3 2 = 0), (by decide : id4Q 3 3 = 1),
    (by decide : homog q0 3 = (1 : ℚ))]
  norm_num

/-- C8: `calculate_robot_angle_and_compensation` never returns at all: for
every input (calibrated or not) it raises `AttributeError`, because both
the `try` body and the `except` handler call the undefined method
`self.add_log`.  This refutes the claim that it always returns the
original angle and a zero compensation on internal failure; the claim
matches the code's own docstring and the comment on line 168, so the code,
not the claim, is at fault. -/
theorem angle_conversion_always_raises (T? : Option (Fin 4 → Fin 4 → ℝ))
    (camera_angle target_angle : ℝ) :
    calculate_robot_angle_and_compensation T? camera_angle target_angle =
      .error .attributeError := by
  cases T? <;> rfl

/-- Applying the rotation block of the identity matrix is the identity. -/
theorem id4R_rot_apply (dp : Fin 3 → ℝ) (i : Fin 3) :
    (∑ j, id4R i.castSucc j.castSucc * dp j) = dp i := by
  fin_cases i <;>
    rw [Fin.sum_univ_three] <;>
    simp [id4R, Fin.ext_iff]

/-- With the identity calibration, the angle conversion reduces to
`atan2` of the direction vector itself. -/
theorem transform_angle_id4R (a : ℝ) :
    transform_angle_from_camera_to_robot (some id4R) a =
      Except.ok (pyMod (arctan2 (Real.sin (a * Real.pi / 180))
        (Real.cos (a * Real.pi / 180)) * 180 / Real.pi) 360) := by
  show Except.ok (pyMod (arctan2
      ((∑ j : Fin 3, id4R (1 : Fin 3).castSucc j.castSucc *
        (if j = 0 then Real.cos (a * Real.pi / 180)
         else if j = 1 then Real.sin (a * Real.pi / 180) else 0)) -
       (∑ j : Fin 3, id4R (1 : Fin 3).castSucc j.castSucc * 0))
      ((∑ j : Fin 3, id4R (0 : Fin 3).castSucc j.castSucc *
        (if j = 0 then Real.cos (a * Real.pi / 180)
         else if j = 1 then Real.sin (a * Real.pi / 180) else 0)) -
       (∑ j : Fin 3, id4R (0 : Fin 3).castSucc j.castSucc * 0))
      * 180 / Real.pi) 360) = _
  rw [id4R_rot_apply, id4R_rot_apply, id4R_rot_apply, id4R_rot_apply, sub_zero, sub_zero,
    if_neg (by decide : ¬(1 : Fin 3) = 0), if_pos (rfl : (1 : Fin 3) = 1),
    if_pos (rfl : (0 : Fin 3) = 0)]

/-- With the identity calibration, a 30° camera angle maps to 30°. -/
theorem transform_angle_id_at_30 :
    transform_angle_from_camera_to_robot (some id4R) 30 = Except.ok 30 := by
  rw [transform_angle_id4R]
  have hrad : (30 : ℝ) * Real.pi / 180 = Real.pi / 6 := by ring
  have harg : arctan2 (Real.sin (Real.pi / 6)) (Real.cos (Real.pi / 6)) = Real.pi / 6 := by
    unfold arctan2
    rw [Complex.mk_eq_add_mul_I, Complex.ofReal_cos, Complex.ofReal_sin]
    exact Complex.arg_cos_add_sin_mul_I
      ⟨by linarith [Real.pi_pos], by linarith [Real.pi_pos]⟩
  have hdeg : Real.pi / 6 * 180 / Real.pi = 30 := by
    field_simp
    ring
  have hmod : pyMod 30 360 = 30 := by
    unfold pyMod
    have : ⌊(30 : ℝ) / 360⌋ = 0 := by
      rw [Int.floor_eq_zero_iff]
      constructor <;> norm_num
    rw [this]
    norm_num
  rw [hrad, harg, hdeg, hmod]

/-- C2: part 1 — as shipped, the call with the identity calibration raises
`AttributeError` instead of returning `(30, -30)` (the `add_log` bug);
part 2 — the computation the function documents for itself (logging as a
no-op) does return mapped angle `30` and compensation `-30` at `(30, 0)`;
part 3 — in general the intended computation returns the mapped angle
paired with `(target − mapped) mod 360`, wrapped into `(−180, 180]` by
subtracting `360` when the difference exceeds `180`; part 4 — for mapped
angle `10` and target `350` that wrap yields `-20`, not `340`. -/
theorem angle_conversion_identity_and_shortest_path :
    calculate_robot_angle_and_compensation (some id4R) 30 0 = .error .attributeError
    ∧ calculate_robot_angle_and_compensation_intended (some id4R) 30 0 = (30, -30)
    ∧ (∀ (T : Fin 4 → Fin 4 → ℝ) (ca ta r : ℝ),
        transform_angle_from_camera_to_robot (some T) ca = .ok r →
        calculate_robot_angle_and_compensation_intended (some T) ca ta =
          (r, if pyMod (ta - r) 360 > 180 then pyMod (ta - r) 360 - 360
              else pyMod (ta - r) 360))
    ∧ (if pyMod (350 - 10 : ℝ) 360 > 180 then pyMod (350 - 10 : ℝ) 360 - 360
        else pyMod (350 - 10 : ℝ) 360) = -20 := by
  have hgen : ∀ (T : Fin 4 → Fin 4 → ℝ) (ca ta r : ℝ),
      transform_angle_from_camera_to_robot (some T) ca = .ok r →
      calculate_robot_angle_and_compensation_intended (some T) ca ta =
        (r, if pyMod (ta - r) 360 > 180 then pyMod (ta - r) 360 - 360
            else pyMod (ta - r) 360) := by
    intro T ca ta r h
    unfold calculate_robot_angle_and_compensation_intended
    rw [h]
  have h330 : pyMod (0 - 30 : ℝ) 360 = 330 := by
    unfold pyMod
    have : ⌊(0 - 30 : ℝ) / 360⌋ = -1 := by
      rw [Int.floor_eq_iff]
      constructor <;> norm_num
    rw [this]
    norm_num
  have h340 : pyMod (350 - 10 : ℝ) 360 = 340 := by
    unfold pyMod
    have : ⌊(350 - 10 : ℝ) / 360⌋ = 0 := by
      rw [Int.floor_eq_zero_iff]
      constructor <;> norm_num
    rw [this]
    norm_num
  refine ⟨by cases (some id4R : Option (Fin 4 → Fin 4 → ℝ)) <;> rfl, ?_, hgen, ?_⟩
  · rw [hgen id4R 30 0 30 transform_angle_id_at_30, h330, if_pos (by norm_num)]
    norm_num
  · rw [h340, if_pos (by norm_num)]
    norm_num

/-- C2 witness: the general shortest-path clause applied to the concrete
identity calibration at camera angle `30`, with its mapped-angle
hypothesis discharged by the trigonometric evaluation. -/
theorem angle_conversion_identity_and_shortest_path_witness :
    calculate_robot_angle_and_compensation_intended (some id4R) 30 0 =
      (30, if pyMod ((0 : ℝ) - 30) 360 > 180 then pyMod ((0 : ℝ) - 30) 360 - 360
           else pyMod ((0 : ℝ) - 30) 360) :=
  angle_conversion_identity_and_shortest_path.2.2.1 id4R 30 0 30 transform_angle_id_at_30

/-- In a validation-failure branch the sentinel equivalence holds as soon
as the failure condition does. -/
theorem validation_failure_case {K : Type} [LinearOrderedField K] (P : Prop) (hp : P) :
    (((false, 0, 0, 0) : Bool × K × K × K).1 = false ↔ P)
    ∧ (((false, 0, 0, 0) : Bool × K × K × K).1 = false →
      ((false, 0, 0, 0) : Bool × K × K × K) = (false, 0, 0, 0)) :=
  ⟨⟨fun _ => hp, fun _ => rfl⟩, fun _ => rfl⟩

/-- When every check of the pixel deprojection passes, none of the
claim's failure conditions holds. -/
theorem specDeprojectFails_refuted {K : Type} [LinearOrderedField K]
    (x y : ℤ) (dd : List K) (cp : CameraParams K)
    (hreq : ¬hasRequiredAttrs cp = false)
    (hx0 : 0 ≤ x) (hxw : x < cp.width.getD 0)
    (hy0 : 0 ≤ y) (hyh : y < cp.height.getD 0)
    (hidx : ¬(y * cp.width.getD 0 + x ≥ (dd.length : ℤ)))
    (hz : ¬(dd.getD (y * cp.width.getD 0 + x).toNat 0 ≤ 0)) :
    ¬ specDeprojectFails x y (some (some dd)) (some cp) := by
  intro hfail
  rcases hfail with h | h | h | ⟨c, hc, hr⟩ | h | ⟨c, hc, hw⟩ | h | ⟨c, hc, hh⟩ |
    ⟨c, d, hc, hd, hi⟩ | ⟨c, d, hc, hd, hzz⟩
  · exact Option.noConfusion h
  · exact Option.noConfusion h
  · exact Option.noConfusion (Option.some.inj h)
  · rw [Option.some.injEq] at hc
    subst hc
    rw [hr] at hreq
    exact hreq rfl
  · omega
  · rw [Option.some.injEq] at hc
    subst hc
    omega
  · omega
  · rw [Option.some.injEq] at hc
    subst hc
    omega
  · rw [Option.some.injEq] at hc
    subst hc
    rw [Option.some.injEq, Option.some.injEq] at hd
    subst hd
    omega
  · rw [Option.some.injEq] at hc
    subst hc
    rw [Option.some.injEq, Option.some.injEq] at hd
    subst hd
    exact hz hzz

/-- C6: the single-pixel deprojection is total; it reports failure (with
the zeroed sentinel point) exactly when one of the claim's validation
conditions holds, and otherwise reports success. -/
theorem pixel_deprojection_total_validation {K : Type} [LinearOrderedField K]
    (sqrt : K → K) (x y : ℤ) (dd? : Option (Option (List K)))
    (cp? : Option (CameraParams K)) :
    ((calculate_3d_coordinates_from_depth sqrt x y dd? cp?).1 = false ↔
      specDeprojectFails x y dd? cp?)
    ∧ ((calculate_3d_coordinates_from_depth sqrt x y dd? cp?).1 = false →
      calculate_3d_coordinates_from_depth sqrt x y dd? cp? = (false, 0, 0, 0)) := by
  rcases dd? with _ | (_ | dd)
  · exact ⟨⟨fun _ => Or.inl rfl, fun _ => rfl⟩, fun _ => rfl⟩
  · exact ⟨⟨fun _ => Or.inr (Or.inr (Or.inl rfl)), fun _ => rfl⟩, fun _ => rfl⟩
  rcases cp? with _ | cp
  · exact ⟨⟨fun _ => Or.inr (Or.inl rfl), fun _ => rfl⟩, fun _ => rfl⟩
  rcases hcm : cp.cam2worldMatrix.getD none with _ | m
  · simp only [calculate_3d_coordinates_from_depth, hcm]
    split_ifs with hreq hrange hidx hz
    · exact validation_failure_case _ (Or.inr (Or.inr (Or.inr (Or.inl ⟨cp, rfl, hreq⟩))))
    · refine validation_failure_case _ ?_
      rcases hrange with h | h | h | h
      · exact Or.inr (Or.inr (Or.inr (Or.inr (Or.inl h))))
      · exact Or.inr (Or.inr (Or.inr (Or.inr (Or.inr (Or.inl ⟨cp, rfl, h⟩)))))
      · exact Or.inr (Or.inr (Or.inr (Or.inr (Or.inr (Or.inr (Or.inl h))))))
      · exact Or.inr (Or.inr (Or.inr (Or.inr (Or.inr (Or.inr (Or.inr (Or.inl ⟨cp, rfl, h⟩)))))))
    · exact validation_failure_case _ (Or.inr (Or.inr (Or.inr (Or.inr (Or.inr (Or.inr
        (Or.inr (Or.inr (Or.inl ⟨cp, dd, rfl, rfl, hidx⟩)))))))))
    · exact validation_failure_case _ (Or.inr (Or.inr (Or.inr (Or.inr (Or.inr (Or.inr
        (Or.inr (Or.inr (Or.inr ⟨cp, dd, rfl, rfl, hz⟩)))))))))
    · push_neg at hrange
      exact ⟨⟨False.elim, fun hp => absurd hp (specDeprojectFails_refuted x y dd cp hreq
        hrange.1 hrange.2.1 hrange.2.2.1 hrange.2.2.2 hidx hz)⟩, fun hf => hf.elim⟩
  · simp only [calculate_3d_coordinates_from_depth, hcm]
    split_ifs with hreq hrange hidx hz hlen
    · exact validation_failure_case _ (Or.inr (Or.inr (Or.inr (Or.inl ⟨cp, rfl, hreq⟩))))
    · refine validation_failure_case _ ?_
      rcases hrange with h | h | h | h
      · exact Or.inr (Or.inr (Or.inr (Or.inr (Or.inl h))))
      · exact Or.inr (Or.inr (Or.inr (Or.inr (Or.inr (Or.inl ⟨cp, rfl, h⟩)))))
      · exact Or.inr (Or.inr (Or.inr (Or.inr (Or.inr (Or.inr (Or.inl h))))))
      · exact Or.inr (Or.inr (Or.inr (Or.inr (Or.inr (Or.inr (Or.inr (Or.inl ⟨cp, rfl, h⟩)))))))
    · exact validation_failure_case _ (Or.inr (Or.inr (Or.inr (Or.inr (Or.inr (Or.inr
        (Or.inr (Or.inr (Or.inl ⟨cp, dd, rfl, rfl, hidx⟩)))))))))
    · exact validation_failure_case _ (Or.inr (Or.inr (Or.inr (Or.inr (Or.inr (Or.inr
        (Or.inr (Or.inr (Or.inr ⟨cp, dd, rfl, rfl, hz⟩)))))))))
    · push_neg at hrange
      exact ⟨⟨False.elim, fun hp => absurd hp (specDeprojectFails_refuted x y dd cp hreq
        hrange.1 hrange.2.1 hrange.2.2.1 hrange.2.2.2 hidx hz)⟩, fun hf => hf.elim⟩
    · push_neg at hrange
      exact ⟨⟨False.elim, fun hp => absurd hp (specDeprojectFails_refuted x y dd cp hreq
        hrange.1 hrange.2.1 hrange.2.2.1 hrange.2.2.2 hidx hz)⟩, fun hf => hf.elim⟩

/-- C6 witness: a negative pixel coordinate fails on intrinsics that are
otherwise fully valid. -/
theorem pixel_deprojection_total_validation_witness :
    (calculate_3d_coordinates_from_depth (id : ℚ → ℚ) (-1) 0
      (some (some [1, 1, 1, 1])) (some cpC2WNone)).1 = false :=
  (pixel_deprojection_total_validation (id : ℚ → ℚ) (-1) 0
    (some (some [1, 1, 1, 1])) (some cpC2WNone)).1.mpr
    (Or.inr (Or.inr (Or.inr (Or.inr (Or.inl (by norm_num))))))

/-- C4 counterexample: with all nine scalar intrinsics present but the
`cam2worldMatrix` attribute missing entirely, the single-pixel
deprojection fails (`success = false`) at a perfectly valid pixel — the
claim says such a call still succeeds.  The `required_attrs` loop at
lines 194-197 demands the presence of `cam2worldMatrix` itself. -/
theorem pixel_fails_without_world_matrix_attribute :
    (cpNoC2W.width.isSome && cpNoC2W.height.isSome && cpNoC2W.cx.isSome &&
     cpNoC2W.cy.isSome && cpNoC2W.fx.isSome && cpNoC2W.fy.isSome &&
     cpNoC2W.k1.isSome && cpNoC2W.k2.isSome && cpNoC2W.f2rc.isSome) = true
    ∧ cpNoC2W.cam2worldMatrix = none
    ∧ (calculate_3d_coordinates_from_depth (id : ℚ → ℚ) 0 0
        (some (some [1, 1, 1, 1])) (some cpNoC2W)).1 = false :=
  ⟨rfl, rfl, rfl⟩

/-- C4 amended: all ten attributes — the nine scalars and
`cam2worldMatrix` itself — must be present for deprojection to proceed;
what is optional is only the *value* of `cam2worldMatrix` being a valid
16-element sequence, and when it is not, the call still succeeds and
returns the camera-frame coordinates. -/
theorem pixel_succeeds_with_invalid_world_matrix_value {K : Type}
    [LinearOrderedField K] (sqrt : K → K) (cp : CameraParams K) (dd : List K)
    (x y : ℤ)
    (hreq : hasRequiredAttrs cp = true)
    (hc2w : cp.cam2worldMatrix = some none ∨
      ∃ m, cp.cam2worldMatrix = some (some m) ∧ m.length ≠ 16)
    (hx0 : 0 ≤ x) (hxw : x < cp.width.getD 0)
    (hy0 : 0 ≤ y) (hyh : y < cp.height.getD 0)
    (hidx : y * cp.width.getD 0 + x < (dd.length : ℤ))
    (hz : 0 < dd.getD (y * cp.width.getD 0 + x).toNat 0) :
    calculate_3d_coordinates_from_depth sqrt x y (some (some dd)) (some cp) =
      (true, cameraFrameCoords sqrt cp dd x y) := by
  simp only [calculate_3d_coordinates_from_depth]
  rw [if_neg (by rw [hreq]; exact fun h => Bool.noConfusion h),
    if_neg (by push_neg; exact ⟨hx0, hxw, hy0, hyh⟩),
    if_neg (show ¬(y * cp.width.getD 0 + x ≥ (dd.length : ℤ)) by omega),
    if_neg (not_le.mpr hz)]
  rcases hc2w with h | ⟨m, hm, hlen⟩
  · rw [h]
    rfl
  · rw [hm]
    show (if m.length ≠ 16 then _ else _) = _
    rw [if_pos hlen]
    rfl

/-- C4 amended witness: intrinsics whose `cam2worldMatrix` attribute holds
a non-sequence value still deproject successfully into camera-frame
coordinates. -/
theorem pixel_succeeds_with_invalid_world_matrix_value_witness :
    calculate_3d_coordinates_from_depth (id : ℚ → ℚ) 0 0
      (some (some [1, 1, 1, 1])) (some cpC2WNone) =
      (true, cameraFrameCoords (id : ℚ → ℚ) cpC2WNone [1, 1, 1, 1] 0 0) :=
  pixel_succeeds_with_invalid_world_matrix_value (id : ℚ → ℚ) cpC2WNone
    [1, 1, 1, 1] 0 0 (by decide) (Or.inl rfl) (by decide) (by decide)
    (by decide) (by decide) (by decide) (by decide)

/-- Reading a mapped range list at an in-bounds index. -/
theorem range_map_getD {α : Type} (n i : ℕ) (f : ℕ → α) (d : α) (h : i < n) :
    ((List.range n).map f).getD i d = f i := by
  rw [List.getD_eq_getElem?_getD, List.getElem?_map, List.getElem?_range h]
  rfl

/-- Row-major index decomposition: the pixel column at flat index
`y*w + x`. -/
theorem flat_index_mod (y x w : ℕ) (hx : x < w) : (y * w + x) % w = x := by
  rw [show y * w + x = w * y + x by ring, Nat.mul_add_mod, Nat.mod_eq_of_lt hx]

/-- Row-major index decomposition: the pixel row at flat index
`y*w + x`. -/
theorem flat_index_div (y x w : ℕ) (hx : x < w) : (y * w + x) / w = y := by
  have hw : 0 < w := Nat.lt_of_le_of_lt (Nat.zero_le x) hx
  rw [show y * w + x = w * y + x by ring, Nat.mul_add_div hw, Nat.div_eq_of_lt hx, add_zero]

/-- C1: on a depth array aligned to the pixel grid, the full-frame
deprojection agrees at flat index `y*width + x` with the single-pixel
deprojection at `(x, y)`: the same point whenever the pixel's depth is
positive (where the pixel call also reports success), and the zero point
whenever the depth is not positive (where the pixel call reports
failure).  The camera record is arbitrary, so both the valid-16-element
`cam2worldMatrix` branch and the invalid/absent-value branch are
covered. -/
theorem frame_deprojection_matches_pixel {K : Type} [LinearOrderedField K]
    (sqrt : K → K) (c : FrameParams K) (dd : List K)
    (hlen : dd.length = c.width * c.height)
    (x y : ℕ) (hx : x < c.width) (hy : y < c.height) :
    (get_3d_coordinates_core sqrt c dd).getD (y * c.width + x) (0, 0, 0) =
      (calculate_3d_coordinates_from_depth sqrt (x : ℤ) (y : ℤ)
        (some (some dd)) (some c.toCameraParams)).2
    ∧ (0 < dd.getD (y * c.width + x) 0 →
      (calculate_3d_coordinates_from_depth sqrt (x : ℤ) (y : ℤ)
        (some (some dd)) (some c.toCameraParams)).1 = true)
    ∧ (dd.getD (y * c.width + x) 0 ≤ 0 →
      calculate_3d_coordinates_from_depth sqrt (x : ℤ) (y : ℤ)
        (some (some dd)) (some c.toCameraParams) = (false, 0, 0, 0)) := by
  have hi : y * c.width + x < c.height * c.width := by
    calc y * c.width + x < y * c.width + c.width := by omega
    _ = (y + 1) * c.width := by ring
    _ ≤ c.height * c.width := Nat.mul_le_mul_right c.width hy
  have hcast : ((y : ℤ)) * ((c.width : ℕ) : ℤ) + ((x : ℤ)) =
      ((y * c.width + x : ℕ) : ℤ) := by push_cast; ring
  simp only [get_3d_coordinates_core]
  rw [range_map_getD _ _ _ _ hi]
  rw [flat_index_mod y x c.width hx, flat_index_div y x c.width hx]
  simp only [calculate_3d_coordinates_from_depth, FrameParams.toCameraParams,
    Option.getD_some]
  rw [if_neg (fun h => Bool.noConfusion h :
      ¬hasRequiredAttrs ⟨some ((c.width : ℕ) : ℤ), some ((c.height : ℕ) : ℤ), some c.cx,
        some c.cy, some c.fx, some c.fy, some c.k1, some c.k2, some c.f2rc,
        some c.cam2worldMatrix⟩ = false),
    if_neg (show ¬((x : ℤ) < 0 ∨ (x : ℤ) ≥ ((c.width : ℕ) : ℤ) ∨ (y : ℤ) < 0 ∨
        (y : ℤ) ≥ ((c.height : ℕ) : ℤ)) by
      push_neg
      exact ⟨Int.natCast_nonneg x, by exact_mod_cast hx, Int.natCast_nonneg y,
        by exact_mod_cast hy⟩),
    if_neg (show ¬((y : ℤ) * ((c.width : ℕ) : ℤ) + (x : ℤ) ≥ (dd.length : ℤ)) by
      push_neg
      rw [hlen, hcast]
      exact_mod_cast Nat.mul_comm c.height c.width ▸ hi)]
  rw [hcast, Int.toNat_natCast, Int.cast_natCast, Int.cast_natCast]
  by_cases hz : dd.getD (y * c.width + x) 0 ≤ 0
  · rw [if_pos hz, if_neg (not_lt.mpr hz)]
    exact ⟨rfl, fun h0 => absurd h0 (not_lt.mpr hz), fun _ => rfl⟩
  · rw [if_neg hz, if_pos (not_le.mp hz)]
    rcases hcm : c.cam2worldMatrix with _ | m
    · exact ⟨rfl, fun _ => rfl, fun h => absurd h hz⟩
    · dsimp only
      by_cases hml : m.length = 16
      · rw [if_pos hml, if_neg (fun hh => hh hml)]
        exact ⟨rfl, fun _ => rfl, fun h => absurd h hz⟩
      · rw [if_neg hml, if_pos hml]
        exact ⟨rfl, fun _ => rfl, fun h => absurd h hz⟩

/-- C1 witness: a concrete 1×1 frame with a 16-element world matrix, at
pixel `(0, 0)`, with the length and bounds hypotheses discharged
concretely. -/
theorem frame_deprojection_matches_pixel_witness :
    (get_3d_coordinates_core sqrtAtOne c1Params [1]).getD
        (0 * c1Params.width + 0) (0, 0, 0) =
      (calculate_3d_coordinates_from_depth sqrtAtOne ((0 : ℕ) : ℤ) ((0 : ℕ) : ℤ)
        (some (some [1])) (some c1Params.toCameraParams)).2
    ∧ (0 < List.getD ([1] : List ℚ) (0 * c1Params.width + 0) 0 →
      (calculate_3d_coordinates_from_depth sqrtAtOne ((0 : ℕ) : ℤ) ((0 : ℕ) : ℤ)
        (some (some [1])) (some c1Params.toCameraParams)).1 = true)
    ∧ (List.getD ([1] : List ℚ) (0 * c1Params.width + 0) 0 ≤ 0 →
      calculate_3d_coordinates_from_depth sqrtAtOne ((0 : ℕ) : ℤ) ((0 : ℕ) : ℤ)
        (some (some [1])) (some c1Params.toCameraParams) = (false, 0, 0, 0)) :=
  frame_deprojection_matches_pixel sqrtAtOne c1Params [1] rfl 0 0
    (by decide) (by decide)

/-- C3 amended: the z-only pipeline agrees with the z-component of the
full-frame deprojection at every index whenever no valid 16-element
`cam2worldMatrix` value is present; with a valid matrix the frame's z is
the world-frame z and the two generally differ
(`z_only_vs_frame_z_counterexample`). -/
theorem z_only_matches_frame_z_without_world_matrix {K : Type}
    [LinearOrderedField K] (sqrt : K → K) (c : FrameParams K) (dd : List K)
    (hlen : dd.length = c.width * c.height)
    (hc2w : c.cam2worldMatrix = none ∨
      ∃ m, c.cam2worldMatrix = some m ∧ m.length ≠ 16) (i : ℕ) :
    (get_z_coordinates_core sqrt c dd).getD i 0 =
      ((get_3d_coordinates_core sqrt c dd).getD i (0, 0, 0)).2.2 := by
  by_cases hi : i < c.height * c.width
  · simp only [get_z_coordinates_core, get_3d_coordinates_core]
    rw [range_map_getD _ _ _ _ hi, range_map_getD _ _ _ _ hi]
    by_cases hz : 0 < dd.getD i 0
    · rw [if_pos hz, if_pos hz]
      rcases hc2w with h | ⟨m, hm, hml⟩
      · rw [h]
      · rw [hm]
        dsimp only
        rw [if_neg hml]
    · rw [if_neg hz, if_neg hz]
  · have hlen1 : (get_z_coordinates_core sqrt c dd).length ≤ i := by
      simp only [get_z_coordinates_core, List.length_map, List.length_range]
      omega
    have hlen2 : (get_3d_coordinates_core sqrt c dd).length ≤ i := by
      simp only [get_3d_coordinates_core, List.length_map, List.length_range]
      omega
    rw [List.getD_eq_default _ _ hlen1, List.getD_eq_default _ _ hlen2]

/-- C3 counterexample: with a valid 16-element `cam2worldMatrix` whose
third row is `[0, 0, 1, 100]`, the z-only pipeline returns the
camera-frame z (`1`) while the frame pipeline's z-component is the
world-frame z (`101`).  The fixture is chosen so the square root is only
evaluated at `1`, where `sqrtAtOne` agrees with `np.sqrt`. -/
theorem z_only_vs_frame_z_counterexample :
    (get_z_coordinates_core sqrtAtOne c3Params [1]).getD 0 0 ≠
      ((get_3d_coordinates_core sqrtAtOne c3Params [1]).getD 0 (0, 0, 0)).2.2 := by
  have h1 : (get_z_coordinates_core sqrtAtOne c3Params [1]).getD 0 0 = 1 := by
    simp only [get_z_coordinates_core]
    rw [range_map_getD _ _ _ _ (by decide)]
    norm_num [c3Params, sqrtAtOne]
  have h2 : ((get_3d_coordinates_core sqrtAtOne c3Params [1]).getD 0 (0, 0, 0)).2.2 = 101 := by
    simp only [get_3d_coordinates_core]
    rw [range_map_getD _ _ _ _ (by decide)]
    norm_num [c3Params, sqrtAtOne]
  rw [h1, h2]
  norm_num

/-- C3 amended witness: a 1×1 frame whose `cam2worldMatrix` value is not a
sequence, at index 0. -/
theorem z_only_matches_frame_z_without_world_matrix_witness :
    (get_z_coordinates_core sqrtAtOne c3ParamsNoM [1]).getD 0 0 =
      ((get_3d_coordinates_core sqrtAtOne c3ParamsNoM [1]).getD 0 (0, 0, 0)).2.2 :=
  z_only_matches_frame_z_without_world_matrix sqrtAtOne c3ParamsNoM [1] rfl
    (Or.inl rfl) 0
